import Mathlib

/-!
Verification of the VNIC reconciliation engine of oci-utils
(`lib/oci_utils/vnicutils.py`), as a shallow embedding in Lean 4.

Modelling conventions:
* Python dict-based interface records (`_intf_dict`) store every value as a
  string (`__setitem__` converts), so a record is an association list
  `List (String × String)`; `__getitem__`'s `__missing__` default is the
  sentinel `"-"`.
* Integer-valued input fields (kernel ifindex, NIC index, VLAN tag) are
  modelled as their decimal string, matching the `str()` conversion done by
  `_intf_dict.__setitem__` when they are stored.
* Python exceptions are modelled with `Except PyErr` (`NameError` for a read
  of an unbound variable, `IndexError` for out-of-range indexing, ...).
* Kernel-configuration side effects (the command layer and the
  `NetworkHelpers` collaborator) are modelled as an emitted trace of
  `NetAct`s; the success of each issued command is decided by an oracle
  `act : NetAct → Int` supplied by the environment (0 = success, as for
  `sudo_utils.call`).
-/

/-- Python exception classes that the modelled code can raise. -/
inductive PyErr where
  | nameError
  | indexError
  | valueError
  | typeError
  | keyError
  | exn
deriving DecidableEq, Repr

/-- Python `str.upper()` for the ASCII strings handled here (MAC addresses,
device names): map lowercase ASCII letters to uppercase. -/
def pyCharUpper (c : Char) : Char :=
  if 'a' ≤ c ∧ c ≤ 'z' then Char.ofNat (c.toNat - 32) else c

/-- See `pyCharUpper`; models `str.upper()` on ASCII input. -/
def pyUpper (s : String) : String :=
  String.mk (s.data.map pyCharUpper)

/-- Python `str.split(sep)` for a one-character separator, on a list of
characters (structural recursion so that the kernel can evaluate it). -/
def splitOnCharAux (sep : Char) : List Char → List Char → List (List Char)
  | [], acc => [acc.reverse]
  | c :: cs, acc =>
    if c = sep then acc.reverse :: splitOnCharAux sep cs []
    else splitOnCharAux sep cs (c :: acc)

/-- Python `str.split(sep)` for a one-character separator. -/
def pySplit (s : String) (sep : Char) : List String :=
  (splitOnCharAux sep s.data []).map String.mk

/-- Python `str.startswith(p)`. -/
def pyStartsWith (s p : String) : Bool :=
  p.data.isPrefixOf s.data

/-- `pySplit` always yields at least one piece (so Python's `split('/')[0]`
never raises). -/
theorem pySplit_ne_nil (s : String) (sep : Char) : pySplit s sep ≠ [] := by
  unfold pySplit
  have : ∀ cs acc, splitOnCharAux sep cs acc ≠ [] := by
    intro cs
    induction cs with
    | nil => intro acc; simp [splitOnCharAux]
    | cons c cs ih =>
      intro acc
      by_cases h : c = sep <;> simp [splitOnCharAux, h, ih]
  simp [this]

/-! ## Dict model

A Python `dict` with string keys is an association list; `rset` is item
assignment (replace the first binding of the key, else append — with
no duplicate keys this is exactly dict assignment). -/

/-- Item assignment `d[k] = v` on an association list. -/
def rset {α : Type} (r : List (String × α)) (k : String) (v : α) :
    List (String × α) :=
  match r with
  | [] => [(k, v)]
  | (k2, v2) :: rest =>
    if k2 = k then (k, v) :: rest else (k2, v2) :: rset rest k v

/-- An interface record produced by `_intf_dict`: every value is a string. -/
abbrev Record := List (String × String)

/-- `_intf_dict.__getitem__`: `__missing__` returns the sentinel `'-'`. -/
def rget (r : Record) (k : String) : String :=
  (List.lookup k r).getD "-"

/-- `_intf_dict.has`: the key is present and its value is not `None`.
All values in the model are strings, hence never `None`. -/
def rhas (r : Record) (k : String) : Bool :=
  (List.lookup k r).isSome

/-- Python `dict.update`: copy every binding of `other`, in order. -/
def updateRec (r other : Record) : Record :=
  other.foldl (fun acc p => rset acc p.1 p.2) r

/-- A fresh `_intf_dict()` (no argument): `{'CONFSTATE': 'uncfg'}`. -/
def emptyIntf : Record := [("CONFSTATE", "uncfg")]

/-! ## Input data model (external collaborators, spec §6) -/

/-- One device of the System Inventory
(`NetworkHelpers.get_network_namespace_infos()` entry).
Integer fields are modelled as decimal strings (see header). -/
structure SysIntf where
  device : String
  mac : Option String
  index : String
  link : String
  subtype : Option String
  itype : String            -- the `type` field: `ether` or other
  opstate : String
  flags : List String
  vlanid : Option String
  addresses : List String   -- the `address` field of each entry
  is_vf : Bool
deriving DecidableEq, Repr

/-- The System Inventory: namespace name (default namespace is `""`)
mapped to its devices. -/
abbrev Inventory := List (String × List SysIntf)

/-- One VNIC of the Metadata Snapshot (`InstanceMetadata()['vnics']` entry).
`vlanTag` and `nicIndex` are integers in the metadata, modelled as decimal
strings (see header). -/
structure MdVnic where
  macAddr : String
  privateIp : String
  subnetCidrBlock : String
  virtualRouterIp : String
  vlanTag : String
  vnicId : String
  nicIndex : Option String
deriving DecidableEq, Repr

/-- The persisted `vnic_info` mapping: `exclude` list, optional `ns`
(present iff the key exists; the value may be the empty string), and
whether the `sshd` key is present. -/
structure VnicInfo where
  exclude : List String
  ns : Option String
  sshd : Bool
deriving DecidableEq, Repr

/-- Python truthiness of an optional string (`if _i.get('mac'):` …). -/
def truthyOpt : Option String → Bool
  | none => false
  | some s => s ≠ ""

/-! ## get_network_config: building observed records (lines 606–643) -/

/-- Build one observed record (`get_network_config`, system loop body):
the devices reaching this point passed the flags/type filter. -/
def buildSysRecord (ns : String) (i : SysIntf) : Record :=
  let r := emptyIntf
  let r := if truthyOpt i.mac then rset r "MAC" (i.mac.getD "") else r
  let r := rset r "IFACE" i.device
  let r := rset r "LINK" i.link
  let r := match i.subtype with
           | some st => rset r "LINKTYPE" st
           | none => rset r "LINKTYPE" "ether"
  let r := rset r "IND" i.index
  let r := rset r "STATE" i.opstate
  let r := if ns ≠ "" then rset r "NS" ns else r
  let r := if truthyOpt i.vlanid then rset r "VLAN" (i.vlanid.getD "") else r
  match i.addresses with
  | [] => if ¬ i.is_vf then rset r "CONFSTATE" "DELETE" else r
  | a :: rest =>
    let r := rset (rset r "CONFSTATE" "-") "ADDR" a
    match rest with
    | [] => r
    | b :: _ => rset r "SECONDARY_ADDR" b

/-- A device is skipped when its flags include `NO-CARRIER` or `LOOPBACK`,
or when its type is not `ether`. -/
def sysKept (i : SysIntf) : Bool :=
  ¬ ("NO-CARRIER" ∈ i.flags) ∧ ¬ ("LOOPBACK" ∈ i.flags) ∧ i.itype = "ether"

/-- `_all_from_system`: observed records across all namespaces. -/
def buildAllFromSystem (inv : Inventory) : List Record :=
  inv.flatMap (fun p => (p.2.filter sysKept).map (buildSysRecord p.1))

/-! ## get_network_config: building desired records (lines 645–663) -/

/-- Build one desired record from a metadata VNIC.  The
`subnetCidrBlock.split('/')[1]` indexing raises `IndexError` when the CIDR
has no `/` (checked up front here; the Python assignment order is
irrelevant because the error aborts the whole call). -/
def buildMdRecord (first : Bool) (v : MdVnic) : Except PyErr Record :=
  match (pySplit v.subnetCidrBlock '/')[1]? with
  | none => .error .indexError
  | some sbits =>
    let r := emptyIntf
    let r := if first then rset r "IS_PRIMARY" "True" else r
    let r := rset r "MAC" (pyUpper v.macAddr)
    let r := rset r "ADDR" v.privateIp
    let r := rset r "SPREFIX" ((pySplit v.subnetCidrBlock '/').headD "")
    let r := rset r "SBITS" sbits
    let r := rset r "VIRTRT" v.virtualRouterIp
    let r := rset r "VLTAG" v.vlanTag
    let r := rset r "VNIC" v.vnicId
    match v.nicIndex with
    | some n => .ok (rset r "NIC_I" n)
    | none => .ok r

/-- `_all_from_metadata`: the first VNIC gets `IS_PRIMARY`. -/
def buildAllFromMetadata : Bool → List MdVnic → Except PyErr (List Record)
  | _, [] => .ok []
  | first, v :: rest =>
    match buildMdRecord first v with
    | .error e => .error e
    | .ok r =>
      match buildAllFromMetadata false rest with
      | .error e => .error e
      | .ok rs => .ok (r :: rs)

/-! ## get_network_config: correlation (lines 665–697) -/

/-- The `try:` body of the correlation loop for one desired record:
returns the updated record and the filtered system pool, or the
exception it raises (`IndexError` from `[...][0]` on an empty list when
two or more candidates lack a macvlan- or vlan-typed member). -/
def correlateBody (pool : List Record) (intf : Record) :
    Except PyErr (Record × List Record) :=
  let cands := pool.filter (fun s => rget s "MAC" = rget intf "MAC")
  let merged : Except PyErr (Record × String) :=
    match cands with
    | [] => .ok (intf, "ADD")
    | [c] =>
      .ok (updateRec intf c, if rhas c "ADDR" then "-" else "ADD")
    | _ :: _ :: _ =>
      match cands.filter (fun i => rget i "LINKTYPE" = "macvlan"),
            cands.filter (fun i => rget i "LINKTYPE" = "vlan") with
      | mv :: _, vl :: _ =>
        let r := updateRec intf mv
        let r := rset r "VLAN" (rget vl "IFACE")
        let r := rset r "IFACE" (rget mv "LINK")
        .ok (r, if rhas vl "ADDR" then "-" else "ADD")
      | _, _ => .error .indexError
  match merged with
  | .error e => .error e
  | .ok (r, st) =>
    let r := rset r "CONFSTATE" st
    .ok (r, pool.filter (fun s => ¬ rget s "MAC" = rget r "MAC"))

/-- The correlation loop: per record `try … except ValueError: pass
finally: interfaces.append(interface)`.  Only `ValueError` is caught; any
other exception propagates and aborts `get_network_config` (nothing in
the body actually raises `ValueError`). -/
def correlate (pool : List Record) :
    List Record → Except PyErr (List Record × List Record)
  | [] => .ok ([], pool)
  | intf :: rest =>
    match correlateBody pool intf with
    | .ok (r, pool2) =>
      match correlate pool2 rest with
      | .error e => .error e
      | .ok (ifs, p) => .ok (r :: ifs, p)
    | .error e =>
      if e = .valueError then
        match correlate pool rest with
        | .error e2 => .error e2
        | .ok (ifs, p) => .ok (intf :: ifs, p)
      else .error e

/-! ## get_network_config: final pass (lines 699–712) -/

/-- `VNICUtils._is_intf_excluded`: some exclusion item equals the record's
`IFACE`, `VNIC` or `ADDR` (each read through `__getitem__`, so a missing
field reads as `'-'`). -/
def _is_intf_excluded (exclude : List String) (r : Record) : Bool :=
  exclude.any (fun e => e = rget r "IFACE" ∨ e = rget r "VNIC" ∨ e = rget r "ADDR")

/-- The final loop of `get_network_config`: retag exclusions, then revert
`DELETE` for "virtual function" records.  `interface['is_vf']` reads a key
that is never stored in any record, so `__missing__` yields the sentinel
`'-'`, which is truthy in Python. -/
def finalPass (exclude : List String) (r : Record) : Record :=
  let r := if _is_intf_excluded exclude r then rset r "CONFSTATE" "EXCL" else r
  if rget r "is_vf" ≠ "" ∧ rget r "CONFSTATE" = "DELETE" then
    rset r "CONFSTATE" "-"
  else r

/-- `VNICUtils.get_network_config` (lines 579–712). -/
def get_network_config (inv : Inventory) (vnics : List MdVnic)
    (exclude : List String) : Except PyErr (List Record) :=
  match buildAllFromMetadata true vnics with
  | .error e => .error e
  | .ok md =>
    match correlate (buildAllFromSystem inv) md with
    | .error e => .error e
    | .ok (ifs, pool) =>
      .ok ((ifs ++ pool.map (fun r => rset r "CONFSTATE" "DELETE")).map
        (finalPass exclude))

/-! ## Routing table name (lines 715–723) -/

/-- `_compute_routing_table_name`: `ort<NIC_I>vl<VLTAG>` on bare-metal
shapes (shape starts with `BM`), else `ort<IND>`. -/
def _compute_routing_table_name (shape : String) (r : Record) : String :=
  if pyStartsWith shape "BM" then
    "ort" ++ rget r "NIC_I" ++ "vl" ++ rget r "VLTAG"
  else
    "ort" ++ rget r "IND"

/-! ## Command layer and NetworkHelpers as an action trace -/

/-- One mutating call to the command layer or to a `NetworkHelpers`
operation. -/
inductive NetAct where
  | sudo (argv : List String)
  | removeIpAddrRules (addr : String)
  | deleteRouteTable (name : String)
  | addRouteTable (name : String)
  | addStaticIpRoute (args : List String) (ns : Option String)
  | addStaticIpRule (args : List String)
  | removeMacFromNm (mac : String)
  | addMacToNm (mac : String)
  | killProcessesInNamespace (ns : String)
deriving DecidableEq, Repr

/-- The result of a code path with side effects: the actions it issued, in
order, and the exception it raised, if any. -/
abbrev TraceR := List NetAct × Option PyErr

/-- Sequencing of effectful code: once an exception is raised, nothing
further runs (unless caught by the caller). -/
def tbind (a : TraceR) (f : Unit → TraceR) : TraceR :=
  match a with
  | (tr, none) => ((tr ++ (f ()).1, (f ()).2) : TraceR)
  | (tr, some e) => (tr, some e)

/-! ## Teardown executor (lines 450–530) -/

/-- `VNICUtils._deconfig_secondary_addr`: remove the rules for the address,
then `ip addr del <addr>/32 dev <device>` (inside the namespace when one is
set and is not the sentinel `'-'`). -/
def _deconfig_secondary_addr (act : NetAct → Int) (device address ns : String) :
    TraceR :=
  let cmd := ["/usr/sbin/ip"]
    ++ (if ns ≠ "" ∧ ns ≠ "-" then ["netns", "exec", ns] else [])
    ++ ["addr", "del", address ++ "/32", "dev", device]
  tbind ([NetAct.removeIpAddrRules address], none) fun _ =>
    if act (NetAct.sudo cmd) = 0 then ([NetAct.sudo cmd], none)
    else ([NetAct.sudo cmd], some .exn)

/-- `_auto_deconfig_intf_routing` (lines 726–741): for non-namespaced
interfaces only, remove the rules and the table. -/
def _auto_deconfig_intf_routing (shape : String) (intf : Record) : TraceR :=
  if ¬ rhas intf "NS" then
    ([NetAct.removeIpAddrRules (_compute_routing_table_name shape intf),
      NetAct.deleteRouteTable (_compute_routing_table_name shape intf)], none)
  else ([], none)

/-- `VNICUtils._auto_deconfig_intf` (lines 480–530).  Note the source's
`'netns,'` (with a trailing comma inside the string) in the namespace
command prefix, reproduced as is. -/
def _auto_deconfig_intf (act : NetAct → Int) (shape : String) (intf : Record) :
    TraceR :=
  let ipcmd := ["/usr/sbin/ip"]
    ++ (if rhas intf "NS" then ["netns,", "exec", rget intf "NS", "/usr/sbin/ip"]
        else [])
  tbind (if rhas intf "NS" then
           ([NetAct.killProcessesInNamespace (rget intf "NS")], none)
         else ([], none)) fun _ =>
  tbind (_auto_deconfig_intf_routing shape intf) fun _ =>
  tbind (if rhas intf "VLAN" then
           let macvlan := rget intf "IFACE" ++ "." ++ rget intf "VLTAG"
           let c := NetAct.sudo (ipcmd ++
             ["link", "del", "link", rget intf "VLTAG", "dev", macvlan])
           if act c = 0 then ([c], none) else ([c], some .exn)
         else if rhas intf "ADDR" then
           let c := NetAct.sudo (ipcmd ++
             ["addr", "del", rget intf "ADDR" ++ "/" ++ rget intf "SBITS",
              "dev", rget intf "IFACE"])
           if act c = 0 then ([c, NetAct.removeIpAddrRules (rget intf "ADDR")], none)
           else ([c], some .exn)
         else ([], none)) fun _ =>
  tbind (if rhas intf "NS" then
           let c := NetAct.sudo ["/usr/sbin/ip", "netns", "delete", rget intf "NS"]
           if act c = 0 then ([c], none) else ([c], some .exn)
         else ([], none)) fun _ =>
  ([NetAct.addMacToNm (rget intf "MAC")], none)

/-! ## Routing configurator (lines 744–798) -/

/-- `_auto_config_intf_routing`.  The namespace info, when present, is the
pair (name, start_sshd). -/
def _auto_config_intf_routing (act : NetAct → Int) (shape : String)
    (nsInfo : Option (String × Bool)) (intf : Record) : TraceR :=
  let intfToUse :=
    if pyStartsWith shape "BM" ∧ rget intf "VLTAG" ≠ "0" then
      rget intf "IFACE" ++ "v" ++ rget intf "VLTAG"
    else rget intf "IFACE"
  match nsInfo with
  | some (nsname, sshd) =>
    let a := NetAct.addStaticIpRoute ["default", "via", rget intf "VIRTRT"]
               (some nsname)
    if act a ≠ 0 then ([a], some .exn)
    else if sshd then
      let b := NetAct.sudo ["/usr/sbin/ip", "netns", "exec", nsname, "/usr/sbin/sshd"]
      if act b = 0 then ([a, b], none) else ([a, b], some .exn)
    else ([a], none)
  | none =>
    let rt := _compute_routing_table_name shape intf
    let a1 := NetAct.addStaticIpRoute
      ["default", "via", rget intf "VIRTRT", "dev", intfToUse, "table", rt] none
    if act a1 ≠ 0 then ([NetAct.addRouteTable rt, a1], some .exn)
    else
      let a2 := NetAct.addStaticIpRule ["from", rget intf "ADDR", "lookup", rt]
      if act a2 ≠ 0 then ([NetAct.addRouteTable rt, a1, a2], some .exn)
      else ([NetAct.addRouteTable rt, a1, a2], none)

/-! ## Secondary-address executor (lines 801–838) -/

/-- `_auto_config_secondary_intf`: for each secondary IP the source calls
`_ip_cmd.extend('addr', 'add', …)` with five positional arguments;
`list.extend` takes exactly one iterable, so the first iteration raises
`TypeError` before any command is issued.  `intf_infos['SECONDARY_IPS']`
reads through `__getitem__`, so it is a string; iterating it in Python
yields its characters. -/
def _auto_config_secondary_intf (intf : Record) : TraceR :=
  if (rget intf "SECONDARY_IPS").data = [] then ([], none)
  else ([], some .typeError)

/-! ## Interface setup executor (lines 841–963) -/

/-- `_auto_config_intf`.  Reproduces the source's command lines, including
the `'netns,'` typo used in the namespace prefixes of the macvlan branch. -/
def _auto_config_intf (act : NetAct → Int) (shape : String)
    (nsInfo : Option (String × Bool)) (intf : Record) : TraceR :=
  let isBM := pyStartsWith shape "BM"
  let vlanName :=
    if isBM ∧ rget intf "VLTAG" ≠ "0" then
      rget intf "IFACE" ++ "v" ++ rget intf "VLTAG"
    else ""
  let macvlanName := rget intf "IFACE" ++ "." ++ rget intf "VLTAG"
  -- bring the interface up if needed
  tbind (if rget intf "STATE" ≠ "up" then
           let c := NetAct.sudo ["/usr/sbin/ip", "link", "set", "dev",
                                 rget intf "IFACE", "up"]
           if act c = 0 then ([c], none) else ([c], some .exn)
         else ([], none)) fun _ =>
  -- create the namespace if requested
  tbind (match nsInfo with
         | some (nsname, _) =>
           let c := NetAct.sudo ["/usr/sbin/ip", "netns", "add", nsname]
           if act c = 0 then ([c], none) else ([c], some .exn)
         | none => ([], none)) fun _ =>
  -- BM case: build the macvlan + vlan stack
  tbind (if isBM ∧ rget intf "VLTAG" ≠ "0" then
           let ipcmd := ["/usr/sbin/ip"]
             ++ (if rhas intf "NS" then
                   ["netns,", "exec", rget intf "NS", "/usr/sbin/ip"]
                 else [])
           let c1 := NetAct.sudo (ipcmd ++
             ["link", "add", "link", rget intf "IFACE", "name", macvlanName,
              "address", rget intf "MAC", "type", "macvlan"])
           tbind (if act c1 = 0 then ([c1], none) else ([c1], some .exn)) fun _ =>
           tbind (if rhas intf "NS" then
                    ([NetAct.sudo ["/usr/sbin/ip", "netns,", "exec",
                       rget intf "NS", "/usr/sbin/ip", "link", "set",
                       macvlanName, "netns", "1"]], none)
                  else ([], none)) fun _ =>
           let c2 := NetAct.sudo ["/usr/sbin/ip", "link", "add", "link",
             macvlanName, "name", vlanName, "type", "vlan", "id",
             rget intf "VLTAG"]
           if act c2 = 0 then ([c2], none) else ([c2], some .exn)
         else ([], none)) fun _ =>
  -- move the iface(s) into the namespace if requested
  tbind (match nsInfo with
         | some (nsname, _) =>
           tbind (if isBM ∧ rget intf "VLTAG" ≠ "0" then
                    let c := NetAct.sudo ["/usr/sbin/ip", "link", "set", "dev",
                                          macvlanName, "netns", nsname]
                    if act c = 0 then ([c], none) else ([c], some .exn)
                  else ([], none)) fun _ =>
           let c := NetAct.sudo ["/usr/sbin/ip", "link", "set", "dev",
                                 rget intf "IFACE", "netns", nsname]
           if act c = 0 then ([c], none) else ([c], some .exn)
         | none => ([], none)) fun _ =>
  -- add the primary IP address
  let prefixCmd := ["/usr/sbin/ip"]
    ++ (match nsInfo with
        | some (nsname, _) => ["netns,", "exec", nsname, "/usr/sbin/ip"]
        | none => [])
  let addrCmd := NetAct.sudo (prefixCmd ++
    ["addr", "add", rget intf "ADDR" ++ "/" ++ rget intf "SBITS", "dev",
     if vlanName ≠ "" then vlanName else rget intf "IFACE"])
  tbind (if act addrCmd = 0 then ([addrCmd], none)
         else ([addrCmd], some .exn)) fun _ =>
  -- MTU and link up
  if isBM ∧ rget intf "VLTAG" ≠ "0" then
    let c1 := NetAct.sudo (prefixCmd ++
      ["link", "set", "dev", macvlanName, "mtu", "9000", "up"])
    tbind (if act c1 = 0 then ([c1], none) else ([c1], some .exn)) fun _ =>
    let c2 := NetAct.sudo (prefixCmd ++
      ["link", "set", "dev", vlanName, "mtu", "9000", "up"])
    if act c2 = 0 then ([c2], none) else ([c2], some .exn)
  else
    let c := NetAct.sudo (prefixCmd ++
      ["link", "set", "dev", rget intf "IFACE", "mtu", "9000", "up"])
    if act c = 0 then ([c], none) else ([c], some .exn)

/-! ## Reconciliation engine: auto_config (lines 341–448) -/

/-- The partitioning loop of `auto_config` (lines 373–399).  It tracks
`_by_nic_index`, skips the primary and excluded records, and then executes
`if sec_ip:` — but `sec_ip` is not a name bound anywhere in `auto_config`
(the parameter is `secondary_ips`), so reaching that statement raises
`NameError`.  Consequently no record is ever appended to
`_all_to_be_configured` or `_all_to_be_deconfigured`: when the loop
completes, both queues are empty. -/
def partitionLoop (exclude : List String) (byNic : Record) :
    List Record → Except PyErr (Record × List Record × List Record)
  | [] => .ok (byNic, [], [])
  | intf :: rest =>
    let byNic :=
      if rget intf "IFACE" ≠ "-" then
        rset byNic (rget intf "NIC_I") (rget intf "IFACE")
      else byNic
    if rhas intf "IS_PRIMARY" then partitionLoop exclude byNic rest
    else if _is_intf_excluded exclude intf then partitionLoop exclude byNic rest
    else .error .nameError   -- `if sec_ip:` reads the unbound name sec_ip

/-- One item of the configure queue (`auto_config`, lines 413–438), inside
its `try`.  `_by_nic_index[_intf['NIC_I']]` is a plain dict access and
raises `KeyError` when the NIC index was never recorded. -/
def configureOne (act : NetAct → Int) (shape : String)
    (nsInfo : Option (String × Bool)) (byNic : Record) (intf : Record) :
    TraceR :=
  let intf2 :=
    if pyStartsWith shape "BM" ∧ rget intf "IFACE" = "-" then
      match List.lookup (rget intf "NIC_I") byNic with
      | none => none
      | some v => some (rset (rset intf "IFACE" v) "STATE" "up")
    else some intf
  match intf2 with
  | none => ([], some .keyError)
  | some i2 =>
    tbind (_auto_config_intf act shape nsInfo i2) fun _ =>
    tbind ([NetAct.removeMacFromNm (rget intf "MAC")], none) fun _ =>
    tbind (_auto_config_intf_routing act shape nsInfo i2) fun _ =>
    if (List.lookup "SECONDARY_IPS" intf).isSome then
      _auto_config_secondary_intf i2
    else ([], none)

/-- The configure queue loop: each item's exception is caught
(`except Exception`), logged as a warning, and the loop continues. -/
def configureLoop (act : NetAct → Int) (shape : String)
    (nsInfo : Option (String × Bool)) (byNic : Record) :
    List Record → List NetAct
  | [] => []
  | intf :: rest =>
    (configureOne act shape nsInfo byNic intf).1
      ++ configureLoop act shape nsInfo byNic rest

/-- The deconfigure queue loop (lines 441–446): same catch-log-continue. -/
def deconfigureLoop (act : NetAct → Int) (shape : String) :
    List Record → List NetAct
  | [] => []
  | intf :: rest =>
    (_auto_deconfig_intf act shape intf).1 ++ deconfigureLoop act shape rest

/-- `VNICUtils.auto_config`.  The namespace name pattern (lines 402–411)
reads the partition loop's variable `_intf` after the loop: when the record
list is empty, that name is unbound and raises `NameError`. -/
def auto_config (act : NetAct → Int) (shape : String) (inv : Inventory)
    (vnics : List MdVnic) (vi : VnicInfo)
    (secondary_ips : List (String × String)) : TraceR :=
  match get_network_config inv vnics vi.exclude with
  | .error e => ([], some e)
  | .ok all =>
    match partitionLoop vi.exclude [] all with
    | .error e => ([], some e)
    | .ok (byNic, toConf, toDeconf) =>
      let nsInfoE : Except PyErr (Option (String × Bool)) :=
        match vi.ns with
        | none => .ok none
        | some s =>
          if s ≠ "" then .ok (some (s, vi.sshd))
          else
            match all.getLast? with
            | none => .error .nameError   -- 'ons%s' % _intf['IFACE'], _intf unbound
            | some last => .ok (some ("ons" ++ rget last "IFACE", vi.sshd))
      match nsInfoE with
      | .error e => ([], some e)
      | .ok nsInfo =>
        (configureLoop act shape nsInfo byNic toConf
           ++ deconfigureLoop act shape toDeconf, none)

/-! ## Reconciliation engine: auto_deconfig (lines 532–577) -/

/-- Inner loop of the secondary-address path of `auto_deconfig`
(lines 556–562): for one `(ip, vnic)` pair, walk all records; a matching
primary raises; otherwise `_deconfig_secondary_addr` runs — with no
exclusion check. -/
def secPathInner (act : NetAct → Int) (ip vnic : String) :
    List Record → TraceR
  | [] => ([], none)
  | intf :: rest =>
    if rget intf "VNIC" = vnic then
      if rhas intf "IS_PRIMARY" then ([], some .exn)
      else
        tbind (_deconfig_secondary_addr act (rget intf "IFACE") ip
                 (rget intf "NS")) fun _ =>
        secPathInner act ip vnic rest
    else secPathInner act ip vnic rest

/-- Outer loop of the secondary-address path over the `(ip, vnic)` pairs. -/
def secPathOuter (act : NetAct → Int) (all : List Record) :
    List (String × String) → TraceR
  | [] => ([], none)
  | (ip, vnic) :: rest =>
    tbind (secPathInner act ip vnic all) fun _ =>
    secPathOuter act all rest

/-- The unconfigure-all path of `auto_deconfig` (lines 564–575): skip the
primary, records tagged `ADD`, and excluded records; no `try` around the
body, so one failure aborts the remaining records. -/
def bulkDeconfigLoop (act : NetAct → Int) (shape : String)
    (exclude : List String) : List Record → TraceR
  | [] => ([], none)
  | intf :: rest =>
    if rhas intf "IS_PRIMARY" then bulkDeconfigLoop act shape exclude rest
    else if rget intf "CONFSTATE" = "ADD" then
      bulkDeconfigLoop act shape exclude rest
    else if _is_intf_excluded exclude intf then
      bulkDeconfigLoop act shape exclude rest
    else
      tbind (_auto_deconfig_intf act shape intf) fun _ =>
      bulkDeconfigLoop act shape exclude rest

/-- `VNICUtils.auto_deconfig`. -/
def auto_deconfig (act : NetAct → Int) (shape : String) (inv : Inventory)
    (vnics : List MdVnic) (vi : VnicInfo)
    (sec_ip : List (String × String)) : TraceR :=
  match get_network_config inv vnics vi.exclude with
  | .error e => ([], some e)
  | .ok all =>
    if sec_ip ≠ [] then secPathOuter act all sec_ip
    else bulkDeconfigLoop act shape vi.exclude all

/-! ## Exclusion-list operations (lines 303–339) -/

/-- `VNICUtils.exclude`: append the item unless already present. -/
def exclude (item : String) (l : List String) : List String :=
  if item ∈ l then l else l ++ [item]

/-- `VNICUtils.include` (renamed: `include` is a Lean keyword): remove the
item when present (`list.remove` deletes the first occurrence). -/
def includeItem (item : String) (l : List String) : List String :=
  if item ∈ l then l.erase item else l

/-! ## `_intf_dict` value conversion (lines 23–59) -/

/-- A Python value that can be stored into an `_intf_dict`. -/
inductive PyVal where
  | str (s : String)
  | bytes (b : List Nat)
  | int (n : Int)
  | boolean (b : Bool)
  | pynone
deriving DecidableEq, Repr

/-- An `_intf_dict` before the all-values-are-strings invariant is known. -/
abbrev IntfDict := List (String × PyVal)

/-- `bytes.decode()`, modelled for ASCII byte values. -/
def bytesDecode (b : List Nat) : String :=
  String.mk (b.map Char.ofNat)

/-- Python `str(v)` for the value kinds of `PyVal` (on `.str` it is the
identity; `.bytes` never reaches it in `__setitem__`). -/
def pyStrOf : PyVal → String
  | .str s => s
  | .bytes b => bytesDecode b
  | .int n => toString n
  | .boolean b => if b then "True" else "False"
  | .pynone => "None"

/-- `_intf_dict.__setitem__`: bytes are decoded, non-strings go through
`str()`, strings are stored as they are. -/
def intf_setitem (r : IntfDict) (k : String) (v : PyVal) : IntfDict :=
  match v with
  | .bytes b => rset r k (.str (bytesDecode b))
  | .str s => rset r k (.str s)
  | other => rset r k (.str (pyStrOf other))

/-- `_intf_dict.__getitem__` with `__missing__` returning `'-'`. -/
def intf_getitem (r : IntfDict) (k : String) : PyVal :=
  (List.lookup k r).getD (.str "-")

/-! ## Dict-model lemmas -/

theorem lookup_cons {α : Type} (k a : String) (b : α) (rest : List (String × α)) :
    List.lookup k ((a, b) :: rest) = if k = a then some b else List.lookup k rest := by
  by_cases h : k = a
  · subst h; simp [List.lookup]
  · have hb : (k == a) = false := by simpa using h
    simp [List.lookup, hb, h]

theorem lookup_rset {α : Type} (r : List (String × α)) (k k2 : String) (v : α) :
    List.lookup k2 (rset r k v) =
      if k2 = k then some v else List.lookup k2 r := by
  induction r with
  | nil => simp [rset, lookup_cons]
  | cons p rest ih =>
    obtain ⟨a, b⟩ := p
    by_cases hak : a = k
    · subst hak
      have hr : rset ((a, b) :: rest) a v = (a, v) :: rest := by
        simp [rset]
      rw [hr, lookup_cons, lookup_cons]
      by_cases hk2 : k2 = a <;> simp [hk2]
    · have hr : rset ((a, b) :: rest) k v = (a, b) :: rset rest k v := by
        simp [rset, hak]
      rw [hr, lookup_cons, lookup_cons, ih]
      by_cases hk2 : k2 = a
      · subst hk2
        simp [hak]
      · simp [hk2]

theorem rget_rset (r : Record) (k k2 : String) (v : String) :
    rget (rset r k v) k2 = if k2 = k then v else rget r k2 := by
  simp only [rget, lookup_rset]
  by_cases h : k2 = k <;> simp [h]

theorem rget_rset_ne (r : Record) {k k2 : String} (v : String) (h : k2 ≠ k) :
    rget (rset r k v) k2 = rget r k2 := by
  simp [rget_rset, h]

theorem rhas_rset (r : Record) (k k2 : String) (v : String) :
    rhas (rset r k v) k2 = if k2 = k then true else rhas r k2 := by
  simp only [rhas, lookup_rset]
  by_cases h : k2 = k <;> simp [h]

theorem mem_rset {α : Type} {r : List (String × α)} {k : String} {v : α}
    {p : String × α} (h : p ∈ rset r k v) : p = (k, v) ∨ p ∈ r := by
  induction r with
  | nil => simpa [rset] using h
  | cons q rest ih =>
    obtain ⟨a, b⟩ := q
    by_cases hak : a = k
    · subst hak
      have hr : rset ((a, b) :: rest) a v = (a, v) :: rest := by
        simp [rset]
      rw [hr] at h
      rcases List.mem_cons.mp h with h2 | h2
      · exact Or.inl h2
      · exact Or.inr (List.mem_cons_of_mem _ h2)
    · have hr : rset ((a, b) :: rest) k v = (a, b) :: rset rest k v := by
        simp [rset, hak]
      rw [hr] at h
      rcases List.mem_cons.mp h with h2 | h2
      · exact Or.inr (h2 ▸ List.mem_cons_self _ _)
      · rcases ih h2 with h3 | h3
        · exact Or.inl h3
        · exact Or.inr (List.mem_cons_of_mem _ h3)

theorem keys_rset {α : Type} (r : List (String × α)) (k : String) (v : α) :
    (rset r k v).map Prod.fst =
      if k ∈ r.map Prod.fst then r.map Prod.fst else r.map Prod.fst ++ [k] := by
  induction r with
  | nil => simp [rset]
  | cons p rest ih =>
    obtain ⟨a, b⟩ := p
    by_cases hak : a = k
    · subst hak; simp [rset]
    · simp only [rset, if_neg hak, List.map_cons]
      by_cases hmem : k ∈ rest.map Prod.fst
      · simp [hmem, ih, Ne.symm hak]
      · simp [hmem, ih, Ne.symm hak]

theorem nodupKeys_rset {α : Type} {r : List (String × α)} (k : String) (v : α)
    (h : (r.map Prod.fst).Nodup) : ((rset r k v).map Prod.fst).Nodup := by
  rw [keys_rset]
  by_cases hmem : k ∈ r.map Prod.fst
  · simpa [hmem] using h
  · simp only [hmem, if_false, ite_false]
    rw [List.nodup_append]
    refine ⟨h, List.nodup_singleton _, ?_⟩
    intro a ha hb
    simp only [List.mem_singleton] at hb
    exact hmem (hb ▸ ha)

theorem lookup_eq_none_iff {α : Type} (r : List (String × α)) (k : String) :
    List.lookup k r = none ↔ k ∉ r.map Prod.fst := by
  induction r with
  | nil => simp
  | cons p rest ih =>
    obtain ⟨a, b⟩ := p
    rw [lookup_cons]
    by_cases hka : k = a
    · subst hka; simp
    · simp [hka, ih]

/-- `dict.update` against an other with no duplicate keys: the other's
binding wins, else the original's. -/
theorem lookup_updateRec (r other : Record) (k : String)
    (h : (other.map Prod.fst).Nodup) :
    List.lookup k (updateRec r other) =
      (List.lookup k other).orElse (fun _ => List.lookup k r) := by
  induction other generalizing r with
  | nil => simp [updateRec]
  | cons p rest ih =>
    obtain ⟨a, b⟩ := p
    simp only [List.map_cons, List.nodup_cons] at h
    have step : updateRec r ((a, b) :: rest) = updateRec (rset r a b) rest := by
      simp [updateRec]
    rw [step, ih _ h.2, lookup_cons]
    by_cases hka : k = a
    · subst hka
      have hnone : List.lookup k rest = none :=
        (lookup_eq_none_iff rest k).mpr h.1
      simp [hnone, lookup_rset]
    · simp [hka, lookup_rset]

theorem rget_updateRec (r other : Record) (k : String)
    (h : (other.map Prod.fst).Nodup) :
    rget (updateRec r other) k =
      if (List.lookup k other).isSome then rget other k else rget r k := by
  simp only [rget, lookup_updateRec r other k h]
  cases hlk : List.lookup k other <;> simp [Option.orElse, hlk]

/-! ## The `is_vf` key is never stored in any record

`get_network_config`'s final pass reads `interface['is_vf']`, but no code
path ever stores a value under that key, so `__missing__` always supplies
the truthy sentinel `'-'` there. -/

/-- No binding for the key `is_vf` exists in the record. -/
def NoVf (r : Record) : Prop := List.lookup "is_vf" r = none

theorem noVf_rset {r : Record} {k : String} (v : String) (h : NoVf r)
    (hk : k ≠ "is_vf") : NoVf (rset r k v) := by
  unfold NoVf
  rw [lookup_rset, if_neg (fun hc => hk hc.symm)]
  exact h

theorem noVf_updateRec {r other : Record} (h : NoVf r) (h2 : NoVf other) :
    NoVf (updateRec r other) := by
  induction other generalizing r with
  | nil => simpa [updateRec]
  | cons p rest ih =>
    obtain ⟨a, b⟩ := p
    rw [NoVf, lookup_cons] at h2
    by_cases ha : "is_vf" = a
    · simp [ha] at h2
    · simp only [ha, if_false, ite_false] at h2
      have step : updateRec r ((a, b) :: rest) = updateRec (rset r a b) rest := by
        simp [updateRec]
      rw [step]
      exact ih (noVf_rset b h (fun hc => ha hc.symm)) h2

theorem noVf_emptyIntf : NoVf emptyIntf := by
  simp [NoVf, emptyIntf, lookup_cons]

theorem noVf_ite {c : Prop} [Decidable c] {r1 r2 : Record}
    (h1 : NoVf r1) (h2 : NoVf r2) : NoVf (if c then r1 else r2) := by
  split <;> assumption

theorem noVf_buildSysRecord (ns : String) (i : SysIntf) :
    NoVf (buildSysRecord ns i) := by
  obtain ⟨dev, mac, idx, link, sub, it, op, fl, vl, addrs, isvf⟩ := i
  unfold buildSysRecord
  rcases sub with _ | st <;> rcases addrs with _ | ⟨a, _ | ⟨b, rest⟩⟩ <;>
    dsimp only <;>
    (repeat first
      | exact noVf_emptyIntf
      | apply noVf_ite
      | refine noVf_rset _ ?_ (by decide))

theorem noVf_buildMdRecord {first : Bool} {v : MdVnic} {r : Record}
    (h : buildMdRecord first v = .ok r) : NoVf r := by
  unfold buildMdRecord at h
  cases hsp : (pySplit v.subnetCidrBlock '/')[1]? with
  | none => simp [hsp] at h
  | some sbits =>
    rw [hsp] at h
    cases hni : v.nicIndex <;> rw [hni] at h <;>
      simp only [Except.ok.injEq] at h <;>
      · subst h
        repeat first
          | exact noVf_emptyIntf
          | apply noVf_ite
          | refine noVf_rset _ ?_ (by decide)

theorem noVf_correlateBody {pool : List Record} {intf : Record}
    (hp : ∀ r ∈ pool, NoVf r) (hi : NoVf intf) {r : Record} {pool2 : List Record}
    (h : correlateBody pool intf = .ok (r, pool2)) :
    NoVf r ∧ ∀ s ∈ pool2, NoVf s := by
  have hfil : ∀ (m : String) (s : Record),
      s ∈ pool.filter (fun s => ¬ rget s "MAC" = m) → NoVf s := by
    intro m s hs
    exact hp s (List.mem_of_mem_filter hs)
  unfold correlateBody at h
  rcases hcs : pool.filter (fun s => rget s "MAC" = rget intf "MAC")
    with _ | ⟨c, _ | ⟨c2, cs2⟩⟩ <;> rw [hcs] at h <;> dsimp only at h
  · simp only [Except.ok.injEq, Prod.mk.injEq] at h
    obtain ⟨rfl, rfl⟩ := h
    exact ⟨noVf_rset _ hi (by decide), fun s hs => hfil _ s hs⟩
  · simp only [Except.ok.injEq, Prod.mk.injEq] at h
    obtain ⟨rfl, rfl⟩ := h
    have hc : c ∈ pool := by
      have : c ∈ pool.filter (fun s => rget s "MAC" = rget intf "MAC") := by
        rw [hcs]; exact List.mem_cons_self _ _
      exact List.mem_of_mem_filter this
    exact ⟨noVf_rset _ (noVf_updateRec hi (hp c hc)) (by decide),
           fun s hs => hfil _ s hs⟩
  · rcases hmv : (c :: c2 :: cs2).filter (fun i => rget i "LINKTYPE" = "macvlan")
      with _ | ⟨mv, mvs⟩ <;> rw [hmv] at h
    · simp at h
    · rcases hvl : (c :: c2 :: cs2).filter (fun i => rget i "LINKTYPE" = "vlan")
        with _ | ⟨vl, vls⟩ <;> rw [hvl] at h
      · simp at h
      · simp only [Except.ok.injEq, Prod.mk.injEq] at h
        obtain ⟨rfl, rfl⟩ := h
        have hmvp : mv ∈ pool := by
          have h1 : mv ∈ (c :: c2 :: cs2).filter
              (fun i => rget i "LINKTYPE" = "macvlan") := by
            rw [hmv]; exact List.mem_cons_self _ _
          have h2 := List.mem_of_mem_filter h1
          rw [← hcs] at h2
          exact List.mem_of_mem_filter h2
        refine ⟨?_, fun s hs => hfil _ s hs⟩
        exact noVf_rset _ (noVf_rset _ (noVf_rset _
          (noVf_updateRec hi (hp mv hmvp)) (by decide)) (by decide)) (by decide)

theorem noVf_correlate {mds : List Record} :
    ∀ {pool : List Record}, (∀ r ∈ pool, NoVf r) → (∀ r ∈ mds, NoVf r) →
    ∀ {ifs pool2 : List Record}, correlate pool mds = .ok (ifs, pool2) →
      (∀ r ∈ ifs, NoVf r) ∧ (∀ r ∈ pool2, NoVf r) := by
  induction mds with
  | nil =>
    intro pool hp _ ifs pool2 h
    simp only [correlate, Except.ok.injEq, Prod.mk.injEq] at h
    obtain ⟨rfl, rfl⟩ := h
    exact ⟨by simp, hp⟩
  | cons intf rest ih =>
    intro pool hp hm ifs pool2 h
    unfold correlate at h
    cases hb : correlateBody pool intf with
    | ok rp =>
      obtain ⟨r, pool1⟩ := rp
      rw [hb] at h
      dsimp only at h
      cases hc : correlate pool1 rest with
      | error e => rw [hc] at h; simp at h
      | ok ip =>
        obtain ⟨ifs1, p1⟩ := ip
        rw [hc] at h
        simp only [Except.ok.injEq, Prod.mk.injEq] at h
        obtain ⟨rfl, rfl⟩ := h
        obtain ⟨hr, hpool1⟩ :=
          noVf_correlateBody hp (hm intf (List.mem_cons_self _ _)) hb
        obtain ⟨hifs, hp2⟩ :=
          ih hpool1 (fun s hs => hm s (List.mem_cons_of_mem _ hs)) hc
        refine ⟨?_, hp2⟩
        intro s hs
        rcases List.mem_cons.mp hs with rfl | hs
        · exact hr
        · exact hifs s hs
    | error e =>
      rw [hb] at h
      dsimp only at h
      by_cases he : e = .valueError
      · rw [if_pos he] at h
        cases hc : correlate pool rest with
        | error e2 => rw [hc] at h; simp at h
        | ok ip =>
          obtain ⟨ifs1, p1⟩ := ip
          rw [hc] at h
          simp only [Except.ok.injEq, Prod.mk.injEq] at h
          obtain ⟨rfl, rfl⟩ := h
          obtain ⟨hifs, hp2⟩ :=
            ih hp (fun s hs => hm s (List.mem_cons_of_mem _ hs)) hc
          refine ⟨?_, hp2⟩
          intro s hs
          rcases List.mem_cons.mp hs with rfl | hs
          · exact hm s (List.mem_cons_self _ _)
          · exact hifs s hs
      · rw [if_neg he] at h
        simp at h

theorem noVf_buildAllFromSystem (inv : Inventory) :
    ∀ r ∈ buildAllFromSystem inv, NoVf r := by
  intro r hr
  unfold buildAllFromSystem at hr
  simp only [List.mem_flatMap, List.mem_map] at hr
  obtain ⟨p, _, i, _, rfl⟩ := hr
  exact noVf_buildSysRecord p.1 i

theorem noVf_buildAllFromMetadata : ∀ {first : Bool} {vnics : List MdVnic}
    {mds : List Record}, buildAllFromMetadata first vnics = .ok mds →
    ∀ r ∈ mds, NoVf r := by
  intro first vnics
  induction vnics generalizing first with
  | nil =>
    intro mds h
    simp only [buildAllFromMetadata, Except.ok.injEq] at h
    subst h; simp
  | cons v rest ih =>
    intro mds h
    unfold buildAllFromMetadata at h
    cases hb : buildMdRecord first v with
    | error e => rw [hb] at h; simp at h
    | ok r =>
      rw [hb] at h
      dsimp only at h
      cases hr : buildAllFromMetadata false rest with
      | error e => rw [hr] at h; simp at h
      | ok rs =>
        rw [hr] at h
        simp only [Except.ok.injEq] at h
        subst h
        intro s hs
        rcases List.mem_cons.mp hs with rfl | hs
        · exact noVf_buildMdRecord hb
        · exact ih hr s hs

theorem rget_is_vf_of_noVf {r : Record} (h : NoVf r) : rget r "is_vf" = "-" := by
  unfold NoVf at h
  simp [rget, h]

/-- The final pass never leaves a record tagged `DELETE`: for every record
produced by this engine there is no `is_vf` binding, so
`interface['is_vf']` reads the truthy sentinel `'-'` and the
`DELETE`-reversion branch fires unconditionally. -/
theorem finalPass_no_delete {exclude : List String} {r : Record} (h : NoVf r) :
    rget (finalPass exclude r) "CONFSTATE" ≠ "DELETE" := by
  unfold finalPass
  set r1 := if _is_intf_excluded exclude r then rset r "CONFSTATE" "EXCL" else r
    with hr1
  have hnv : NoVf r1 := by
    rw [hr1]; exact noVf_ite (noVf_rset _ h (by decide)) h
  have hvf : rget r1 "is_vf" = "-" := rget_is_vf_of_noVf hnv
  by_cases hd : rget r1 "CONFSTATE" = "DELETE"
  · rw [if_pos ⟨by rw [hvf]; decide, hd⟩, rget_rset]
    simp
  · rw [if_neg (fun hc => hd hc.2)]
    exact hd

/-- No record in a successfully returned `get_network_config` list carries
`CONFSTATE = 'DELETE'` (the `is_vf` sentinel bug reverts them all). -/
theorem no_delete_in_output {inv : Inventory} {vnics : List MdVnic}
    {exclude : List String} {out : List Record}
    (h : get_network_config inv vnics exclude = .ok out) :
    ∀ r ∈ out, rget r "CONFSTATE" ≠ "DELETE" := by
  unfold get_network_config at h
  cases hmd : buildAllFromMetadata true vnics with
  | error e => rw [hmd] at h; simp at h
  | ok md =>
    rw [hmd] at h
    dsimp only at h
    cases hco : correlate (buildAllFromSystem inv) md with
    | error e => rw [hco] at h; simp at h
    | ok ip =>
      obtain ⟨ifs, pool⟩ := ip
      rw [hco] at h
      simp only [Except.ok.injEq] at h
      subst h
      intro r hr
      rw [List.mem_map] at hr
      obtain ⟨r0, hr0, rfl⟩ := hr
      apply finalPass_no_delete
      obtain ⟨hifs, hpool⟩ := noVf_correlate (noVf_buildAllFromSystem inv)
        (noVf_buildAllFromMetadata hmd) hco
      rcases List.mem_append.mp hr0 with h1 | h1
      · exact hifs r0 h1
      · rw [List.mem_map] at h1
        obtain ⟨r1, hr1, rfl⟩ := h1
        exact noVf_rset _ (hpool r1 hr1) (by decide)

/-! # Claim theorems -/

/-- C1: the claim says an observed interface whose MAC matches no metadata
VNIC is tagged `DELETE` when it is not a virtual-function device.  The code
contradicts this: `interface['is_vf']` reads a key that no code path ever
stores, `__missing__` supplies the truthy sentinel `'-'`, and the final
pass therefore reverts every `DELETE` tag to `'-'`.  Here a non-VF ether
device with an address and a MAC unknown to metadata ends tagged `'-'`. -/
theorem c1_unmatched_nonvf_not_tagged_delete :
    (get_network_config
        [("", [⟨"ens3", some "AA:BB:CC:00:00:03", "2", "", none, "ether",
          "up", [], none, ["10.0.0.7"], false⟩])] [] []).map
      (List.map (fun r => rget r "CONFSTATE"))
    = .ok ["-"] := rfl

/-- C2 counterexample: the observed device reports its MAC in lowercase
while the metadata MAC is canonicalised to uppercase; the correlation at
line 670 compares the strings exactly, so the two sides fail to match and
the same (case-insensitive) MAC ends up in two output records instead of
exactly one. -/
theorem c2_mac_appears_twice_case_insensitive :
    ((get_network_config
        [("", [⟨"ens3", some "aa:bb:cc:00:00:01", "2", "", none, "ether",
          "up", [], none, ["10.0.0.5"], false⟩])]
        [⟨"aa:bb:cc:00:00:01", "10.0.0.5", "10.0.0.0/24", "10.0.0.1", "0",
          "vnic1", none⟩] []).map
      (fun out => out.countP
        (fun r => pyUpper (rget r "MAC") == "AA:BB:CC:00:00:01")))
    = .ok 2 := rfl

/-- C3 counterexample: when the exclusion list matches the primary
record's address, the final retag pass sets `CONFSTATE = 'EXCL'` on the
record carrying `IS_PRIMARY` — the claim says the primary is never tagged
`EXCL`. -/
theorem c3_primary_excluded_gets_excl :
    get_network_config []
      [⟨"AA:BB:CC:00:00:01", "10.0.0.5", "10.0.0.0/24", "10.0.0.1", "0",
        "vnic1", none⟩] ["10.0.0.5"]
    = .ok [[("CONFSTATE", "EXCL"), ("IS_PRIMARY", "True"),
        ("MAC", "AA:BB:CC:00:00:01"), ("ADDR", "10.0.0.5"),
        ("SPREFIX", "10.0.0.0"), ("SBITS", "24"), ("VIRTRT", "10.0.0.1"),
        ("VLTAG", "0"), ("VNIC", "vnic1")]] := rfl

/-- C3 (amended): in any successfully returned network configuration, a
record carrying `IS_PRIMARY` is never tagged `DELETE`.  The `EXCL` half of
the original claim is false: the final exclusion pass retags a matching
primary to `EXCL` like any other record. -/
theorem c3_primary_never_delete (inv : Inventory) (vnics : List MdVnic)
    (exclude : List String) (out : List Record)
    (h : get_network_config inv vnics exclude = .ok out) :
    ∀ r ∈ out, rhas r "IS_PRIMARY" → rget r "CONFSTATE" ≠ "DELETE" :=
  fun r hr _ => no_delete_in_output h r hr

/-- Witness for the amended C3 theorem at a concrete input. -/
theorem c3_primary_never_delete_witness :
    rget [("CONFSTATE", "ADD"), ("IS_PRIMARY", "True"),
      ("MAC", "AA:BB:CC:00:00:01"), ("ADDR", "10.0.0.5"),
      ("SPREFIX", "10.0.0.0"), ("SBITS", "24"), ("VIRTRT", "10.0.0.1"),
      ("VLTAG", "0"), ("VNIC", "vnic1")] "CONFSTATE" ≠ "DELETE" :=
  c3_primary_never_delete []
    [⟨"AA:BB:CC:00:00:01", "10.0.0.5", "10.0.0.0/24", "10.0.0.1",
      "0", "vnic1", none⟩] []
    [[("CONFSTATE", "ADD"), ("IS_PRIMARY", "True"),
      ("MAC", "AA:BB:CC:00:00:01"), ("ADDR", "10.0.0.5"),
      ("SPREFIX", "10.0.0.0"), ("SBITS", "24"), ("VIRTRT", "10.0.0.1"),
      ("VLTAG", "0"), ("VNIC", "vnic1")]]
    rfl _ (List.mem_singleton.mpr rfl) (by decide)

/-- C5 counterexample: three observed ether-type records (one macvlan-typed,
one vlan-typed, one plain) share the desired record's MAC.  The claim says
correlation must raise a fatal error for that record instead of selecting
candidates; the code instead silently selects the first macvlan- and
vlan-typed candidates, consumes all three (the third disappears without any
record of its own), and returns successfully. -/
theorem c5_three_candidates_silently_selected :
    get_network_config
      [("", [⟨"maca.5", some "AA:BB:CC:00:00:07", "4", "ens1", some "macvlan",
          "ether", "up", [], none, [], false⟩,
        ⟨"ens1v5", some "AA:BB:CC:00:00:07", "5", "maca.5", some "vlan",
          "ether", "up", [], none, ["10.0.4.2"], false⟩,
        ⟨"ens9", some "AA:BB:CC:00:00:07", "6", "", none, "ether", "up",
          [], none, [], false⟩])]
      [⟨"AA:BB:CC:00:00:07", "10.0.4.2", "10.0.4.0/24", "10.0.4.1", "5",
        "vnic7", some "0"⟩] []
    = .ok [[("CONFSTATE", "-"), ("IS_PRIMARY", "True"),
        ("MAC", "AA:BB:CC:00:00:07"), ("ADDR", "10.0.4.2"),
        ("SPREFIX", "10.0.4.0"), ("SBITS", "24"), ("VIRTRT", "10.0.4.1"),
        ("VLTAG", "5"), ("VNIC", "vnic7"), ("NIC_I", "0"),
        ("IFACE", "ens1"), ("LINK", "ens1"), ("LINKTYPE", "macvlan"),
        ("IND", "4"), ("STATE", "up"), ("VLAN", "ens1v5")]] := rfl

/-! ## auto_config helper lemmas -/

/-- When `auto_config`'s partition loop completes without raising, both
work queues are empty (the `NameError` at `if sec_ip:` fires before any
record can be queued). -/
theorem partitionLoop_queues_empty {exclude : List String} :
    ∀ {byNic : Record} {all : List Record} {b : Record} {q1 q2 : List Record},
      partitionLoop exclude byNic all = .ok (b, q1, q2) → q1 = [] ∧ q2 = [] := by
  intro byNic all
  induction all generalizing byNic with
  | nil =>
    intro b q1 q2 h
    simp only [partitionLoop, Except.ok.injEq, Prod.mk.injEq] at h
    exact ⟨h.2.1.symm, h.2.2.symm⟩
  | cons intf rest ih =>
    intro b q1 q2 h
    unfold partitionLoop at h
    dsimp only at h
    split at h
    · exact ih h
    · split at h
      · exact ih h
      · simp at h

/-- When some record is neither primary nor excluded, the partition loop
raises `NameError` (the read of the unbound `sec_ip`). -/
theorem partitionLoop_nameError {exclude : List String} :
    ∀ {byNic : Record} {all : List Record},
      (∃ r ∈ all, ¬ rhas r "IS_PRIMARY" ∧ _is_intf_excluded exclude r = false) →
      partitionLoop exclude byNic all = .error .nameError := by
  intro byNic all
  induction all generalizing byNic with
  | nil => intro h; simp at h
  | cons intf rest ih =>
    intro h
    unfold partitionLoop
    dsimp only
    by_cases h1 : rhas intf "IS_PRIMARY"
    · rw [if_pos h1]
      apply ih
      obtain ⟨r, hr, hnp, hne⟩ := h
      rcases List.mem_cons.mp hr with rfl | hr
      · exact absurd h1 hnp
      · exact ⟨r, hr, hnp, hne⟩
    · rw [if_neg h1]
      by_cases h2 : _is_intf_excluded exclude intf = true
      · rw [if_pos h2]
        apply ih
        obtain ⟨r, hr, hnp, hne⟩ := h
        rcases List.mem_cons.mp hr with rfl | hr
        · rw [h2] at hne; cases hne
        · exact ⟨r, hr, hnp, hne⟩
      · rw [if_neg h2]

/-- C6 counterexample: a desired, non-primary, non-excluded VNIC yields a
record tagged `ADD`, so the claimed "full-configuration work … is performed
first" — but `auto_config` issues no command at all and aborts with
`NameError` (the unbound `sec_ip` at line 388). -/
theorem c6_add_record_aborts_pass :
    auto_config (fun _ => 0) "VM.Standard2.1" []
      [⟨"AA:BB:CC:00:00:01", "10.0.0.5", "10.0.0.0/24", "10.0.0.1", "0",
        "vnic1", none⟩,
       ⟨"AA:BB:CC:00:00:02", "10.0.0.9", "10.0.0.0/24", "10.0.0.1", "0",
        "vnic2", none⟩]
      ⟨[], none, false⟩ []
    = ([], some .nameError) := rfl

/-- C6 (amended): `auto_config` never performs any configuration,
deconfiguration or secondary-address work: a pass that reaches a record
that is neither primary nor excluded aborts with `NameError` (the unbound
name `sec_ip`) before queueing it, and otherwise both work queues are
empty, so the issued command trace is empty for every input. -/
theorem c6_auto_config_issues_no_commands (act : NetAct → Int)
    (shape : String) (inv : Inventory) (vnics : List MdVnic) (vi : VnicInfo)
    (sips : List (String × String)) :
    (auto_config act shape inv vnics vi sips).1 = [] := by
  unfold auto_config
  cases hg : get_network_config inv vnics vi.exclude with
  | error e => rfl
  | ok all =>
    dsimp only
    cases hp : partitionLoop vi.exclude [] all with
    | error e => rfl
    | ok t =>
      obtain ⟨b, q1, q2⟩ := t
      obtain ⟨hq1, hq2⟩ := partitionLoop_queues_empty hp
      subst hq1; subst hq2
      dsimp only
      split <;> rfl

/-- C7: the claim says any error while configuring or deconfiguring one
queued interface is caught and the pass continues.  The pass never gets
that far: whenever the correlated configuration contains a record that is
neither primary nor excluded — i.e. whenever anything would be queued —
`auto_config` aborts with `NameError` before processing any queue. -/
theorem c7_pass_aborts_before_queues (act : NetAct → Int) (shape : String)
    (inv : Inventory) (vnics : List MdVnic) (vi : VnicInfo)
    (sips : List (String × String)) (all : List Record)
    (hok : get_network_config inv vnics vi.exclude = .ok all)
    (hex : ∃ r ∈ all, ¬ rhas r "IS_PRIMARY" ∧
      _is_intf_excluded vi.exclude r = false) :
    auto_config act shape inv vnics vi sips = ([], some PyErr.nameError) := by
  unfold auto_config
  rw [hok]
  dsimp only
  rw [partitionLoop_nameError hex]

/-- Witness for the C7 theorem at a concrete input. -/
theorem c7_pass_aborts_before_queues_witness :
    auto_config (fun _ => 1) "BM.Standard2.52" []
      [⟨"AA:BB:CC:00:00:11", "10.1.0.5", "10.1.0.0/24", "10.1.0.1", "0",
        "vnicA", none⟩,
       ⟨"AA:BB:CC:00:00:12", "10.1.0.9", "10.1.0.0/24", "10.1.0.1", "0",
        "vnicB", none⟩]
      ⟨[], none, false⟩ []
    = ([], some PyErr.nameError) :=
  c7_pass_aborts_before_queues (fun _ => 1) "BM.Standard2.52" []
    [⟨"AA:BB:CC:00:00:11", "10.1.0.5", "10.1.0.0/24", "10.1.0.1", "0",
      "vnicA", none⟩,
     ⟨"AA:BB:CC:00:00:12", "10.1.0.9", "10.1.0.0/24", "10.1.0.1", "0",
      "vnicB", none⟩]
    ⟨[], none, false⟩ []
    [[("CONFSTATE", "ADD"), ("IS_PRIMARY", "True"),
        ("MAC", "AA:BB:CC:00:00:11"), ("ADDR", "10.1.0.5"),
        ("SPREFIX", "10.1.0.0"), ("SBITS", "24"), ("VIRTRT", "10.1.0.1"),
        ("VLTAG", "0"), ("VNIC", "vnicA")],
      [("CONFSTATE", "ADD"), ("MAC", "AA:BB:CC:00:00:12"),
        ("ADDR", "10.1.0.9"), ("SPREFIX", "10.1.0.0"), ("SBITS", "24"),
        ("VIRTRT", "10.1.0.1"), ("VLTAG", "0"), ("VNIC", "vnicB")]]
    rfl
    ⟨[("CONFSTATE", "ADD"), ("MAC", "AA:BB:CC:00:00:12"),
        ("ADDR", "10.1.0.9"), ("SPREFIX", "10.1.0.0"), ("SBITS", "24"),
        ("VIRTRT", "10.1.0.1"), ("VLTAG", "0"), ("VNIC", "vnicB")],
      by decide, by decide, by decide⟩

/-- C4: the claim says no mutating command ever targets an interface that
matches an exclusion rule, "including the secondary-address
deconfiguration path of auto_deconfig".  That path never consults the
exclusion list: here the record for `vnic2` matches the exclusion rule
`10.0.0.9` (its address) and is tagged `EXCL`, yet
`auto_deconfig(sec_ip=[('10.9.9.9','vnic2')])` still issues the
rule-removal and `ip addr del … dev ens3` commands against its device. -/
theorem c4_excluded_interface_mutated_by_sec_path :
    ((get_network_config
        [("", [⟨"ens3", some "AA:BB:CC:00:00:09", "2", "", none, "ether",
          "up", [], none, ["10.0.0.9"], false⟩])]
        [⟨"AA:BB:CC:00:00:01", "10.0.0.5", "10.0.0.0/24", "10.0.0.1", "0",
          "vnic1", none⟩,
         ⟨"AA:BB:CC:00:00:09", "10.0.0.9", "10.0.0.0/24", "10.0.0.1", "0",
          "vnic2", none⟩] ["10.0.0.9"]).map
        (List.map (fun r => (rget r "VNIC", rget r "IFACE", rget r "CONFSTATE")))
      = .ok [("vnic1", "-", "ADD"), ("vnic2", "ens3", "EXCL")])
    ∧ auto_deconfig (fun _ => 0) "VM.Standard2.1"
        [("", [⟨"ens3", some "AA:BB:CC:00:00:09", "2", "", none, "ether",
          "up", [], none, ["10.0.0.9"], false⟩])]
        [⟨"AA:BB:CC:00:00:01", "10.0.0.5", "10.0.0.0/24", "10.0.0.1", "0",
          "vnic1", none⟩,
         ⟨"AA:BB:CC:00:00:09", "10.0.0.9", "10.0.0.0/24", "10.0.0.1", "0",
          "vnic2", none⟩]
        ⟨["10.0.0.9"], none, false⟩ [("10.9.9.9", "vnic2")]
      = ([.removeIpAddrRules "10.9.9.9",
          .sudo ["/usr/sbin/ip", "addr", "del", "10.9.9.9/32", "dev", "ens3"]],
         none) :=
  ⟨rfl, rfl⟩

/-- C5 (amended): with more than two MAC-matching candidates the
correlation never raises an error specific to that record: when both a
macvlan-typed and a vlan-typed candidate exist it silently merges using
the first of each and succeeds; otherwise the `[...][0]` indexing raises
`IndexError`, which the loop's `except ValueError` does not catch, so the
whole correlation (and `get_network_config`) aborts instead of isolating
the failure to that record. -/
theorem c5_more_than_two_candidates_behavior (pool : List Record)
    (intf : Record) (rest : List Record)
    (h3 : 3 ≤ (pool.filter (fun s => rget s "MAC" = rget intf "MAC")).length) :
    (((pool.filter (fun s => rget s "MAC" = rget intf "MAC")).filter
        (fun i => rget i "LINKTYPE" = "macvlan") ≠ [] ∧
      (pool.filter (fun s => rget s "MAC" = rget intf "MAC")).filter
        (fun i => rget i "LINKTYPE" = "vlan") ≠ []) →
      ∃ r pool2, correlateBody pool intf = .ok (r, pool2))
    ∧ (((pool.filter (fun s => rget s "MAC" = rget intf "MAC")).filter
        (fun i => rget i "LINKTYPE" = "macvlan") = [] ∨
       (pool.filter (fun s => rget s "MAC" = rget intf "MAC")).filter
        (fun i => rget i "LINKTYPE" = "vlan") = []) →
      correlate pool (intf :: rest) = .error .indexError) := by
  rcases hcs : pool.filter (fun s => rget s "MAC" = rget intf "MAC")
    with _ | ⟨c, _ | ⟨c2, cs⟩⟩
  · rw [hcs] at h3; simp at h3
  · rw [hcs] at h3; simp at h3
  · constructor
    · rintro ⟨hmv, hvl⟩
      rcases hm2 : (c :: c2 :: cs).filter
          (fun i => rget i "LINKTYPE" = "macvlan") with _ | ⟨mv, mvs⟩
      · exact absurd hm2 hmv
      rcases hv2 : (c :: c2 :: cs).filter
          (fun i => rget i "LINKTYPE" = "vlan") with _ | ⟨vl, vls⟩
      · exact absurd hv2 hvl
      have hbody : correlateBody pool intf = .ok
          (rset (rset (rset (updateRec intf mv) "VLAN" (rget vl "IFACE"))
             "IFACE" (rget mv "LINK")) "CONFSTATE"
             (if rhas vl "ADDR" then "-" else "ADD"),
           pool.filter (fun s => ¬ rget s "MAC" =
             rget (rset (rset (rset (updateRec intf mv) "VLAN"
               (rget vl "IFACE")) "IFACE" (rget mv "LINK")) "CONFSTATE"
               (if rhas vl "ADDR" then "-" else "ADD")) "MAC")) := by
        unfold correlateBody
        rw [hcs]
        dsimp only
        rw [hm2, hv2]
      exact ⟨_, _, hbody⟩
    · intro hdisj
      have hbody : correlateBody pool intf = .error .indexError := by
        unfold correlateBody
        rw [hcs]
        dsimp only
        rcases hm2 : (c :: c2 :: cs).filter
            (fun i => rget i "LINKTYPE" = "macvlan") with _ | ⟨mv, mvs⟩
        · rfl
        · rcases hv2 : (c :: c2 :: cs).filter
              (fun i => rget i "LINKTYPE" = "vlan") with _ | ⟨vl, vls⟩
          · rfl
          · rcases hdisj with hA | hB
            · rw [hm2] at hA; simp at hA
            · rw [hv2] at hB; simp at hB
      unfold correlate
      rw [hbody]
      dsimp only
      rw [if_neg (by decide : ¬ PyErr.indexError = PyErr.valueError)]

/-- Witness for the amended C5 theorem: three plain ether candidates share
the desired record's MAC, so the whole correlation aborts with
`IndexError`. -/
theorem c5_more_than_two_candidates_behavior_witness :
    correlate
      [[("MAC", "AA:BB:CC:00:00:21"), ("LINKTYPE", "ether"), ("IFACE", "e1")],
       [("MAC", "AA:BB:CC:00:00:21"), ("LINKTYPE", "ether"), ("IFACE", "e2")],
       [("MAC", "AA:BB:CC:00:00:21"), ("LINKTYPE", "ether"), ("IFACE", "e3")]]
      [[("CONFSTATE", "uncfg"), ("MAC", "AA:BB:CC:00:00:21")]]
    = .error .indexError :=
  (c5_more_than_two_candidates_behavior
    [[("MAC", "AA:BB:CC:00:00:21"), ("LINKTYPE", "ether"), ("IFACE", "e1")],
     [("MAC", "AA:BB:CC:00:00:21"), ("LINKTYPE", "ether"), ("IFACE", "e2")],
     [("MAC", "AA:BB:CC:00:00:21"), ("LINKTYPE", "ether"), ("IFACE", "e3")]]
    [("CONFSTATE", "uncfg"), ("MAC", "AA:BB:CC:00:00:21")] []
    (by decide)).2 (Or.inl (by decide))

/-- C8: the routing-table name is a pure function of the shape and of the
record's `NIC_I`, `VLTAG` and `IND` fields: on bare-metal shapes it is
`ort<nic-index>vl<vlan-tag>`, otherwise `ort<ifindex>`, and two calls on
records agreeing on that tuple return the identical name. -/
theorem c8_routing_table_name_deterministic (shape shape2 : String)
    (r r2 : Record) (hs : shape = shape2)
    (h1 : rget r "NIC_I" = rget r2 "NIC_I")
    (h2 : rget r "VLTAG" = rget r2 "VLTAG")
    (h3 : rget r "IND" = rget r2 "IND") :
    _compute_routing_table_name shape r = _compute_routing_table_name shape2 r2
    ∧ (pyStartsWith shape "BM" = true →
        _compute_routing_table_name shape r =
          "ort" ++ rget r "NIC_I" ++ "vl" ++ rget r "VLTAG")
    ∧ (pyStartsWith shape "BM" = false →
        _compute_routing_table_name shape r = "ort" ++ rget r "IND") := by
  subst hs
  unfold _compute_routing_table_name
  by_cases hbm : pyStartsWith shape "BM" = true
  · simp [hbm, h1, h2]
  · simp only [Bool.not_eq_true] at hbm
    simp [hbm, h3]

/-- Witness for the C8 theorem at a concrete shape and records. -/
theorem c8_routing_table_name_deterministic_witness :
    _compute_routing_table_name "BM.Standard2.52"
        [("NIC_I", "0"), ("VLTAG", "5"), ("IND", "3")]
      = _compute_routing_table_name "BM.Standard2.52"
        [("IND", "3"), ("VLTAG", "5"), ("NIC_I", "0"), ("IFACE", "ens1")]
    ∧ (pyStartsWith "BM.Standard2.52" "BM" = true →
        _compute_routing_table_name "BM.Standard2.52"
          [("NIC_I", "0"), ("VLTAG", "5"), ("IND", "3")]
        = "ort" ++ rget [("NIC_I", "0"), ("VLTAG", "5"), ("IND", "3")] "NIC_I"
          ++ "vl" ++ rget [("NIC_I", "0"), ("VLTAG", "5"), ("IND", "3")] "VLTAG")
    ∧ (pyStartsWith "BM.Standard2.52" "BM" = false →
        _compute_routing_table_name "BM.Standard2.52"
          [("NIC_I", "0"), ("VLTAG", "5"), ("IND", "3")]
        = "ort" ++ rget [("NIC_I", "0"), ("VLTAG", "5"), ("IND", "3")] "IND") :=
  c8_routing_table_name_deterministic "BM.Standard2.52" "BM.Standard2.52"
    [("NIC_I", "0"), ("VLTAG", "5"), ("IND", "3")]
    [("IND", "3"), ("VLTAG", "5"), ("NIC_I", "0"), ("IFACE", "ens1")]
    rfl (by decide) (by decide) (by decide)

/-- Every value of an `_intf_dict` is a Python string. -/
def AllStr (r : IntfDict) : Prop := ∀ p ∈ r, ∃ s, p.2 = PyVal.str s

/-- C9: `_intf_dict.__getitem__` of an absent key returns the sentinel
`'-'` instead of raising, and `__setitem__` only ever stores strings:
bytes values are decoded and any other non-string value is converted with
`str`. -/
theorem c9_intf_dict_sentinel_and_string_values (r : IntfDict)
    (k k2 s : String) (v : PyVal) (b : List Nat) (n : Int)
    (hmiss : List.lookup k2 r = none) (hall : AllStr r) :
    intf_getitem r k2 = PyVal.str "-"
    ∧ AllStr (intf_setitem r k v)
    ∧ List.lookup k (intf_setitem r k (.bytes b)) = some (.str (bytesDecode b))
    ∧ List.lookup k (intf_setitem r k (.str s)) = some (.str s)
    ∧ List.lookup k (intf_setitem r k (.int n)) = some (.str (toString n)) := by
  refine ⟨?_, ?_, ?_, ?_, ?_⟩
  · simp [intf_getitem, hmiss]
  · intro p hp
    cases v <;>
      (rcases mem_rset hp with rfl | hmem
       · exact ⟨_, rfl⟩
       · exact hall p hmem)
  · simp [intf_setitem, lookup_rset]
  · simp [intf_setitem, lookup_rset]
  · simp [intf_setitem, lookup_rset, pyStrOf]

/-- Witness for the C9 theorem at a concrete record and values. -/
theorem c9_intf_dict_sentinel_and_string_values_witness :
    intf_getitem [("CONFSTATE", PyVal.str "uncfg")] "ADDR" = PyVal.str "-"
    ∧ AllStr (intf_setitem [("CONFSTATE", PyVal.str "uncfg")] "VLTAG"
        (PyVal.int 5))
    ∧ List.lookup "VLTAG" (intf_setitem [("CONFSTATE", PyVal.str "uncfg")]
        "VLTAG" (.bytes [53])) = some (.str (bytesDecode [53]))
    ∧ List.lookup "VLTAG" (intf_setitem [("CONFSTATE", PyVal.str "uncfg")]
        "VLTAG" (.str "5")) = some (.str "5")
    ∧ List.lookup "VLTAG" (intf_setitem [("CONFSTATE", PyVal.str "uncfg")]
        "VLTAG" (.int 5)) = some (.str (toString (5 : Int))) :=
  c9_intf_dict_sentinel_and_string_values
    [("CONFSTATE", PyVal.str "uncfg")] "VLTAG" "ADDR" "5" (PyVal.int 5)
    [53] 5 (by decide)
    (fun p hp => by
      rcases List.mem_singleton.mp hp with rfl
      exact ⟨"uncfg", rfl⟩)

/-- C10: for an item not currently excluded, `exclude` then `include`
restores the original list; a second `exclude` of the same item is a
no-op, the item ends up in the list exactly once, and `exclude` preserves
freedom from duplicates. -/
theorem c10_exclude_include_roundtrip (item : String) (l : List String)
    (hni : item ∉ l) :
    includeItem item (exclude item l) = l
    ∧ exclude item (exclude item l) = exclude item l
    ∧ List.count item (exclude item (exclude item l)) = 1
    ∧ (l.Nodup → (exclude item l).Nodup)
    ∧ (∀ x, l.Nodup → (includeItem x l).Nodup) := by
  have he : exclude item l = l ++ [item] := by simp [exclude, hni]
  have hmem : item ∈ l ++ [item] := by simp
  have he2 : exclude item (exclude item l) = l ++ [item] := by
    rw [he]; simp [exclude, hmem]
  refine ⟨?_, ?_, ?_, ?_, ?_⟩
  · rw [he]
    unfold includeItem
    rw [if_pos hmem, List.erase_append_right _ hni]
    simp
  · rw [he2, he]
  · rw [he2, List.count_append]
    simp [List.count_eq_zero.mpr hni]
  · intro hnd
    rw [he, List.nodup_append]
    exact ⟨hnd, List.nodup_singleton _, by simpa using hni⟩
  · intro x hnd
    unfold includeItem
    split
    · exact hnd.erase x
    · exact hnd

/-- Witness for the C10 theorem at a concrete item and list. -/
theorem c10_exclude_include_roundtrip_witness :
    includeItem "10.0.0.9" (exclude "10.0.0.9" ["ens5", "vnic3"])
        = ["ens5", "vnic3"]
    ∧ exclude "10.0.0.9" (exclude "10.0.0.9" ["ens5", "vnic3"])
        = exclude "10.0.0.9" ["ens5", "vnic3"]
    ∧ List.count "10.0.0.9"
        (exclude "10.0.0.9" (exclude "10.0.0.9" ["ens5", "vnic3"])) = 1
    ∧ (["ens5", "vnic3"].Nodup → (exclude "10.0.0.9" ["ens5", "vnic3"]).Nodup)
    ∧ (∀ x, ["ens5", "vnic3"].Nodup → (includeItem x ["ens5", "vnic3"]).Nodup) :=
  c10_exclude_include_roundtrip "10.0.0.9" ["ens5", "vnic3"] (by decide)

/-! ## Correlation totality (exact string MAC matching) -/

/-- The MAC value of each record, in order. -/
def macsOf (rs : List Record) : List String := rs.map (fun r => rget r "MAC")

theorem nodupKeys_emptyIntf : ((emptyIntf.map Prod.fst).Nodup) := by
  simp [emptyIntf]

theorem nodupKeys_ite {c : Prop} [Decidable c] {r1 r2 : Record}
    (h1 : (r1.map Prod.fst).Nodup) (h2 : (r2.map Prod.fst).Nodup) :
    (((if c then r1 else r2) : Record).map Prod.fst).Nodup := by
  split <;> assumption

set_option maxHeartbeats 1000000 in
theorem nodupKeys_buildSysRecord (ns : String) (i : SysIntf) :
    ((buildSysRecord ns i).map Prod.fst).Nodup := by
  obtain ⟨dev, mac, idx, link, sub, it, op, fl, vl, addrs, isvf⟩ := i
  unfold buildSysRecord
  rcases sub with _ | st <;> rcases addrs with _ | ⟨a, _ | ⟨b, rest⟩⟩ <;>
    dsimp only <;> split_ifs <;>
    simp [keys_rset, emptyIntf]

/-- The MAC stored in an observed record is the device's reported MAC,
whenever one was reported (Python truthiness). -/
theorem rget_buildSysRecord_MAC (ns : String) (i : SysIntf)
    (h : truthyOpt i.mac = true) :
    rget (buildSysRecord ns i) "MAC" = i.mac.getD "" := by
  obtain ⟨dev, mac, idx, link, sub, it, op, fl, vl, addrs, isvf⟩ := i
  unfold buildSysRecord
  dsimp only at h ⊢
  rw [if_pos h]
  rcases sub with _ | st <;> rcases addrs with _ | ⟨a, _ | ⟨b, rest⟩⟩ <;>
    dsimp only <;> split_ifs <;>
    simp [rget_rset, rget, lookup_rset, lookup_cons]

/-- A successfully built desired record carries the uppercased metadata
MAC. -/
theorem buildMdRecord_ok (first : Bool) (v : MdVnic)
    (h : 2 ≤ (pySplit v.subnetCidrBlock '/').length) :
    ∃ r, buildMdRecord first v = .ok r ∧ rget r "MAC" = pyUpper v.macAddr := by
  have h1 : ∃ sb, (pySplit v.subnetCidrBlock '/')[1]? = some sb := by
    rw [List.getElem?_eq_getElem (by omega)]
    exact ⟨_, rfl⟩
  obtain ⟨sb, h1⟩ := h1
  unfold buildMdRecord
  rw [h1]
  rcases hni : v.nicIndex with _ | n <;> cases first <;>
    refine ⟨_, rfl, ?_⟩ <;>
    simp [rget_rset, rget, lookup_rset, lookup_cons]

/-- Building the desired list succeeds when every CIDR is well formed, and
produces exactly the uppercased metadata MACs, in order. -/
theorem buildAllFromMetadata_ok : ∀ (first : Bool) (vnics : List MdVnic),
    (∀ v ∈ vnics, 2 ≤ (pySplit v.subnetCidrBlock '/').length) →
    ∃ md, buildAllFromMetadata first vnics = .ok md ∧
      macsOf md = vnics.map (fun v => pyUpper v.macAddr) := by
  intro first vnics
  induction vnics generalizing first with
  | nil => intro _; exact ⟨[], rfl, rfl⟩
  | cons v rest ih =>
    intro h
    obtain ⟨r, hr, hmac⟩ :=
      buildMdRecord_ok first v (h v (List.mem_cons_self _ _))
    obtain ⟨md, hmd, hmacs⟩ :=
      ih false (fun w hw => h w (List.mem_cons_of_mem _ hw))
    refine ⟨r :: md, ?_, ?_⟩
    · unfold buildAllFromMetadata
      rw [hr, hmd]
    · simp [macsOf] at hmacs ⊢
      exact ⟨hmac, hmacs⟩

/-- With duplicate-free observed MACs, at most one candidate matches any
given MAC. -/
theorem filter_mac_length_le_one {pool : List Record}
    (h : (macsOf pool).Nodup) (m : String) :
    (pool.filter (fun s => rget s "MAC" = m)).length ≤ 1 := by
  induction pool with
  | nil => simp
  | cons p ps ih =>
    simp only [macsOf, List.map_cons, List.nodup_cons] at h
    rw [List.filter_cons]
    by_cases hm : rget p "MAC" = m
    · have hnil : ps.filter (fun s => rget s "MAC" = m) = [] := by
        rw [List.filter_eq_nil_iff]
        intro s hs hsm
        apply h.1
        rw [List.mem_map]
        refine ⟨s, hs, ?_⟩
        simp only [decide_eq_true_eq] at hsm
        rw [hsm, hm]
      rw [if_pos (by simp [hm]), hnil]
      simp
    · rw [if_neg (by simp [hm])]
      exact ih h.2

/-- `dict.update` does not change the MAC when the other record's MAC
(read through `__getitem__`) equals it. -/
theorem rget_updateRec_eq {r c : Record} (h : (c.map Prod.fst).Nodup)
    (hmac : rget c "MAC" = rget r "MAC") :
    rget (updateRec r c) "MAC" = rget r "MAC" := by
  rw [rget_updateRec _ _ _ h]
  split
  · exact hmac
  · rfl

/-- Taking the MACs commutes with filtering by a predicate on the MAC. -/
theorem macsOf_filter (pool : List Record) (p : String → Bool)
    (q : Record → Bool) (hq : ∀ s, q s = p (rget s "MAC")) :
    macsOf (pool.filter q) = (macsOf pool).filter p := by
  induction pool with
  | nil => simp [macsOf]
  | cons r ps ih =>
    simp only [macsOf, List.map_cons, List.filter_cons] at ih ⊢
    rw [hq r]
    by_cases hp : p (rget r "MAC") = true
    · simp [hp, ih]
    · simp only [Bool.not_eq_true] at hp
      simp [hp, ih]

/-- Counting records by MAC equals counting in the MAC list. -/
theorem countP_mac (out : List Record) (m : String) :
    out.countP (fun r => rget r "MAC" == m) = (macsOf out).count m := by
  unfold macsOf List.count
  rw [List.countP_map]
  rfl

theorem macsOf_filter_nodup {pool : List Record} (hnd : (macsOf pool).Nodup)
    (q : Record → Bool) : (macsOf (pool.filter q)).Nodup :=
  List.Nodup.sublist (List.Sublist.map _ (List.filter_sublist pool)) hnd

/-- The correlation loop, when every observed MAC is distinct: it returns
one record per desired record carrying that record's MAC, and the pool
shrinks to exactly the observed records whose MAC matches no desired
record (exact string comparison throughout). -/
theorem correlate_spine : ∀ (mds pool : List Record),
    (macsOf pool).Nodup →
    (∀ r ∈ pool, (r.map Prod.fst).Nodup) →
    ∃ ifs, correlate pool mds =
        .ok (ifs, pool.filter
          (fun s => ¬ (macsOf mds).contains (rget s "MAC")))
      ∧ macsOf ifs = macsOf mds := by
  intro mds
  induction mds with
  | nil =>
    intro pool hnd hkeys
    refine ⟨[], ?_, rfl⟩
    have hfe : pool.filter
        (fun s => ¬ (macsOf ([] : List Record)).contains (rget s "MAC"))
        = pool := by
      apply List.filter_eq_self.mpr
      intro s _
      simp [macsOf]
    rw [hfe]
    rfl
  | cons intf rest ih =>
    intro pool hnd hkeys
    have hcons : macsOf (intf :: rest) = rget intf "MAC" :: macsOf rest := rfl
    have hle := filter_mac_length_le_one hnd (rget intf "MAC")
    have main : ∀ R : Record, rget R "MAC" = rget intf "MAC" →
        correlateBody pool intf = .ok (R, pool.filter
          (fun s => ¬ rget s "MAC" = rget intf "MAC")) →
        ∃ ifs, correlate pool (intf :: rest) =
            .ok (ifs, pool.filter
              (fun s => ¬ (macsOf (intf :: rest)).contains (rget s "MAC")))
          ∧ macsOf ifs = macsOf (intf :: rest) := by
      intro R hR hbody
      obtain ⟨ifs, hco, hmacs⟩ :=
        ih (pool.filter (fun s => ¬ rget s "MAC" = rget intf "MAC"))
          (macsOf_filter_nodup hnd _)
          (fun r hr => hkeys r (List.mem_of_mem_filter hr))
      have hfilt : (pool.filter
            (fun s => ¬ rget s "MAC" = rget intf "MAC")).filter
            (fun s => ¬ (macsOf rest).contains (rget s "MAC"))
          = pool.filter
            (fun s => ¬ (macsOf (intf :: rest)).contains (rget s "MAC")) := by
        rw [List.filter_filter]
        apply List.filter_congr
        intro s _
        rw [hcons]
        by_cases h1 : rget s "MAC" = rget intf "MAC" <;>
          by_cases h2 : (macsOf rest).contains (rget s "MAC") = true <;>
          simp [h1, h2, List.contains_cons]
      refine ⟨R :: ifs, ?_, ?_⟩
      · unfold correlate
        rw [hbody]
        dsimp only
        rw [hco]
        dsimp only
        rw [hfilt]
      · rw [hcons]
        simp only [macsOf, List.map_cons] at hmacs ⊢
        rw [hR, hmacs]
    rcases hcs : pool.filter (fun s => rget s "MAC" = rget intf "MAC")
      with _ | ⟨c, _ | ⟨c2, cs⟩⟩
    · -- no candidate: state ADD, record unchanged
      apply main (rset intf "CONFSTATE" "ADD") (rget_rset_ne _ _ (by decide))
      unfold correlateBody
      rw [hcs]
      dsimp only
      have hmm : rget (rset intf "CONFSTATE" "ADD") "MAC" = rget intf "MAC" :=
        rget_rset_ne _ _ (by decide)
      simp only [hmm]
    · -- exactly one candidate: merge
      have hcmem : c ∈ pool.filter (fun s => rget s "MAC" = rget intf "MAC") := by
        rw [hcs]; exact List.mem_cons_self _ _
      have hcp : c ∈ pool := List.mem_of_mem_filter hcmem
      have hcmac : rget c "MAC" = rget intf "MAC" := by
        have := (List.mem_filter.mp hcmem).2
        simpa using this
      have hRmac : rget (rset (updateRec intf c) "CONFSTATE"
          (if rhas c "ADDR" then "-" else "ADD")) "MAC" = rget intf "MAC" := by
        rw [rget_rset_ne _ _ (by decide)]
        exact rget_updateRec_eq (hkeys c hcp) hcmac
      apply main _ hRmac
      unfold correlateBody
      rw [hcs]
      dsimp only
      simp only [hRmac]
    · -- impossible: at most one candidate under duplicate-free MACs
      rw [hcs] at hle
      simp at hle

theorem nodupKeys_buildAllFromSystem (inv : Inventory) :
    ∀ r ∈ buildAllFromSystem inv, (r.map Prod.fst).Nodup := by
  intro r hr
  unfold buildAllFromSystem at hr
  simp only [List.mem_flatMap, List.mem_map] at hr
  obtain ⟨p, _, i, _, rfl⟩ := hr
  exact nodupKeys_buildSysRecord p.1 i

theorem macsOf_append (a b : List Record) :
    macsOf (a ++ b) = macsOf a ++ macsOf b := by
  simp [macsOf]

theorem rget_finalPass_MAC (excl : List String) (r : Record) :
    rget (finalPass excl r) "MAC" = rget r "MAC" := by
  unfold finalPass
  rcases hx : _is_intf_excluded excl r <;>
    simp only [hx, Bool.false_eq_true, if_false, if_true, ite_true,
      ite_false] <;>
    split <;>
    simp [rget_rset]

theorem macsOf_map_of_mac_preserved (l : List Record) (f : Record → Record)
    (hf : ∀ r, rget (f r) "MAC" = rget r "MAC") :
    macsOf (l.map f) = macsOf l := by
  unfold macsOf
  rw [List.map_map]
  exact List.map_congr_left (fun a _ => hf a)

/-- C2 (amended): with exact (case-sensitive) MAC comparison — which is
what line 670 performs — and pairwise-distinct MACs on each side plus
well-formed metadata CIDRs, every MAC present in the desired state (after
its uppercasing) or in the observed state appears in exactly one record of
`get_network_config`'s output.  As stated, with case-insensitive
comparison, the claim is false: observed MACs are never uppercased, so a
lowercase observed MAC fails to correlate with its uppercased metadata
MAC and appears in a second record. -/
theorem c2_correlation_totality_exact (inv : Inventory)
    (vnics : List MdVnic) (excl : List String)
    (hmd : (vnics.map (fun v => pyUpper v.macAddr)).Nodup)
    (hsys : (macsOf (buildAllFromSystem inv)).Nodup)
    (hcidr : ∀ v ∈ vnics, 2 ≤ (pySplit v.subnetCidrBlock '/').length) :
    ∃ out, get_network_config inv vnics excl = .ok out ∧
      ∀ m ∈ vnics.map (fun v => pyUpper v.macAddr)
          ++ macsOf (buildAllFromSystem inv),
        out.countP (fun r => rget r "MAC" == m) = 1 := by
  obtain ⟨md, hmdok, hmdmacs⟩ := buildAllFromMetadata_ok true vnics hcidr
  obtain ⟨ifs, hco, hifmacs⟩ := correlate_spine md (buildAllFromSystem inv)
    hsys (nodupKeys_buildAllFromSystem inv)
  have hgnc : get_network_config inv vnics excl = .ok ((ifs
      ++ (List.filter (fun s =>
          ¬ (macsOf md).contains (rget s "MAC")) (buildAllFromSystem inv)).map
        (fun r => rset r "CONFSTATE" "DELETE")).map (finalPass excl)) := by
    unfold get_network_config
    rw [hmdok]
    dsimp only
    rw [hco]
  refine ⟨_, hgnc, ?_⟩
  intro m hm
  rw [countP_mac]
  have hpres : macsOf ((ifs
      ++ (List.filter (fun s =>
          ¬ (macsOf md).contains (rget s "MAC")) (buildAllFromSystem inv)).map
        (fun r => rset r "CONFSTATE" "DELETE")).map (finalPass excl))
      = macsOf md ++ (macsOf (buildAllFromSystem inv)).filter
          (fun x => ¬ (macsOf md).contains x) := by
    rw [macsOf_map_of_mac_preserved _ _ (rget_finalPass_MAC excl),
        macsOf_append,
        macsOf_map_of_mac_preserved _ _
          (fun r => rget_rset_ne _ _ (by decide)),
        macsOf_filter (buildAllFromSystem inv)
          (fun x => decide (¬ (macsOf md).contains x = true))
          (fun s => decide (¬ (macsOf md).contains (rget s "MAC") = true))
          (fun s => rfl),
        hifmacs]
  rw [hpres, List.count_append]
  by_cases hmmem : m ∈ macsOf md
  · have hc1 : (macsOf md).count m = 1 :=
      List.count_eq_one_of_mem (hmdmacs ▸ hmd) hmmem
    have hc0 : ((macsOf (buildAllFromSystem inv)).filter
        (fun x => ¬ (macsOf md).contains x)).count m = 0 := by
      rw [List.count_eq_zero]
      intro hmem
      have := (List.mem_filter.mp hmem).2
      simp only [decide_eq_true_eq] at this
      exact this (List.elem_iff.mpr hmmem)
    rw [hc1, hc0]
  · have hmsys : m ∈ macsOf (buildAllFromSystem inv) := by
      rcases List.mem_append.mp hm with h | h
      · exact absurd (hmdmacs ▸ h) hmmem
      · exact h
    have hc0 : (macsOf md).count m = 0 := List.count_eq_zero.mpr hmmem
    have hc1 : ((macsOf (buildAllFromSystem inv)).filter
        (fun x => ¬ (macsOf md).contains x)).count m = 1 := by
      rw [List.count_filter (by
        simp only [decide_eq_true_eq]
        intro hc
        exact hmmem (List.elem_iff.mp hc))]
      exact List.count_eq_one_of_mem hsys hmsys
    rw [hc0, hc1]

/-- Witness for the amended C2 theorem at a concrete input: one desired
VNIC whose device reports the MAC in the same (upper) case, plus one
unmatched observed device. -/
theorem c2_correlation_totality_exact_witness :
    ∃ out, get_network_config
        [("", [⟨"ens3", some "AA:BB:CC:00:00:31", "2", "", none, "ether",
            "up", [], none, ["10.3.0.9"], false⟩,
          ⟨"ens4", some "AA:BB:CC:00:00:32", "3", "", none, "ether",
            "up", [], none, [], false⟩])]
        [⟨"AA:BB:CC:00:00:31", "10.3.0.9", "10.3.0.0/24", "10.3.0.1", "0",
          "vnic31", none⟩] [] = .ok out ∧
      ∀ m ∈ [(⟨"AA:BB:CC:00:00:31", "10.3.0.9", "10.3.0.0/24", "10.3.0.1",
            "0", "vnic31", none⟩ : MdVnic)].map (fun v => pyUpper v.macAddr)
          ++ macsOf (buildAllFromSystem
            [("", [⟨"ens3", some "AA:BB:CC:00:00:31", "2", "", none, "ether",
                "up", [], none, ["10.3.0.9"], false⟩,
              ⟨"ens4", some "AA:BB:CC:00:00:32", "3", "", none, "ether",
                "up", [], none, [], false⟩])]),
        out.countP (fun r => rget r "MAC" == m) = 1 :=
  c2_correlation_totality_exact _ _ [] (by decide) (by decide) (by decide)
